import Mathlib

/-!
Verification development for the synest media-wallpaper daemon.

The definitions below are a shallow embedding of the Go sources:
internal/monitor/screen.go (MPRIS monitor: signal handling, metadata
parsing, player-name registry, bounded event channel, shutdown),
internal/engine/engine.go (debounce loop, pipeline, stop with wallpaper
restoration) and cmd/daemon lifecycle hooks.  Dynamically typed D-Bus
values are modelled as a tagged union, Go maps as association lists,
channels as bounded lists with a non-blocking send, and goroutine
shutdown as an interleaving semantics over per-thread operation lists.
-/

namespace Synest

/-- Tagged union modelling a dynamically typed D-Bus value
(dbus.Variant payloads and interface values in Go).  The dict case
models the Go type map from string to dbus.Variant as an association
list. -/
inductive DValue where
  | vString : String → DValue
  | vStringArray : List String → DValue
  | vInt : Int → DValue
  | vDict : List (String × DValue) → DValue
  | vOther : DValue

/-- Playback status, from internal/domain (PlayerStatus constants). -/
inductive PlayerStatus where
  | Playing
  | Paused
  | Stopped
deriving DecidableEq, Repr

/-- MediaMetadata value type, from internal/domain.  Fields default to
the Go zero values (empty string, and the parser sets Status
explicitly). -/
structure MediaMetadata where
  Title : String := ""
  Artist : String := ""
  Album : String := ""
  ArtUrl : String := ""
  Status : PlayerStatus := PlayerStatus.Stopped
deriving DecidableEq, Repr

/-- Lookup in an association list modelling a Go map read with the
comma-ok idiom: the value of the first matching key, if any. -/
def lookupProp (bag : List (String × DValue)) (k : String) : Option DValue :=
  (bag.find? (fun p => p.1 == k)).map (fun p => p.2)

/-- Status-token mapping from the switch statement at the top of
MprisMonitor.parseMetadata: Playing and Paused map to themselves,
everything else (including the explicit Stopped case and the default
branch) maps to Stopped. -/
def parseStatus (status : String) : PlayerStatus :=
  match status with
  | "Playing" => PlayerStatus.Playing
  | "Paused" => PlayerStatus.Paused
  | "Stopped" => PlayerStatus.Stopped
  | _ => PlayerStatus.Stopped

/-- MprisMonitor.parseMetadata.  The metadata argument is optional
because the Go map may be nil (the function returns after setting only
the status in that case).  Each field is extracted with a failable type
assertion; a failed assertion leaves the field at its zero value. -/
def parseMetadata (metadata : Option (List (String × DValue))) (status : String) :
    MediaMetadata :=
  let meta0 : MediaMetadata := { Status := parseStatus status }
  match metadata with
  | none => meta0
  | some bag =>
    let meta1 :=
      match lookupProp bag "xesam:title" with
      | some (DValue.vString t) => { meta0 with Title := t }
      | _ => meta0
    let meta2 :=
      match lookupProp bag "xesam:artist" with
      | some (DValue.vStringArray artists) =>
          match artists with
          | a :: _ => { meta1 with Artist := a }
          | [] => meta1
      | some (DValue.vString a) => { meta1 with Artist := a }
      | _ => meta1
    let meta3 :=
      match lookupProp bag "xesam:album" with
      | some (DValue.vString al) => { meta2 with Album := al }
      | _ => meta2
    let meta4 :=
      match lookupProp bag "mpris:artUrl" with
      | some (DValue.vString u) =>
          if u = "" then meta3 else { meta3 with ArtUrl := u }
      | _ => meta3
    meta4

/-- Capacity of the events channel, from NewMprisMonitor:
make(chan domain.MediaMetadata, 10). -/
def eventsChanCapacity : Nat := 10

/-- Non-blocking send on the bounded events channel, modelling the
select with a default branch used by fetchPlayerMetadata and
handleSignal.  The channel buffer is the list of unread snapshots.
Being a total function, the attempt always returns at once: the result
is the new buffer plus a flag saying whether the snapshot was accepted
(false means it was dropped). -/
def trySendEvent (queue : List MediaMetadata) (x : MediaMetadata) :
    List MediaMetadata × Bool :=
  if queue.length < eventsChanCapacity then (queue ++ [x], true) else (queue, false)

/-- Name of the properties-changed signal checked first in
MprisMonitor.handleSignal. -/
def propertiesChangedName : String := "org.freedesktop.DBus.Properties.PropertiesChanged"

/-- The player interface expected in the first body element of a
properties-changed signal. -/
def playerInterface : String := "org.mpris.MediaPlayer2.Player"

/-- Prefix of well-known MPRIS player bus names. -/
def mprisNamePrefix : String := "org.mpris.MediaPlayer2."

/-- The Go strings.HasPrefix, as an executable character-list check. -/
def hasPrefix (s pre : String) : Bool := pre.data.isPrefixOf s.data

/-- A D-Bus signal as used by the monitor: name, sender identity and a
body of dynamically typed values. -/
structure DBusSignal where
  Name : String
  Sender : String
  Body : List DValue

/-- Results of the on-demand GetProperty calls made by handleSignal
when only one of the two interesting properties changed.  none models a
call that returned an error; a value of the wrong dynamic type is also
possible and is narrowed by the handler itself. -/
structure PropFetch where
  statusFetch : Option DValue
  metadataFetch : Option DValue

/-- Status value obtained by the on-demand fetch in handleSignal when
PlaybackStatus was not in the signal: the Go status variable starts at
its zero value and is overwritten only if the call succeeded and the
value is a string. -/
def fetchedStatus (fetch : PropFetch) : String :=
  match fetch.statusFetch with
  | some (DValue.vString s) => s
  | _ => ""

/-- Metadata obtained by the on-demand fetch in handleSignal when
Metadata was not in the signal: the Go metadata map stays nil unless
the call succeeded and the value is a map. -/
def fetchedMetadata (fetch : PropFetch) : Option (List (String × DValue)) :=
  match fetch.metadataFetch with
  | some (DValue.vDict d) => some d
  | _ => none

/-- Core of MprisMonitor.handleSignal once the changed-properties map
has been extracted: look up Metadata and PlaybackStatus, return with no
emission when neither is present or when a present value has the wrong
dynamic type, fetch the missing side on demand otherwise, and emit the
parsed snapshot. -/
def handleSignalProps (fetch : PropFetch) (changedProps : List (String × DValue)) :
    Option MediaMetadata :=
  match lookupProp changedProps "Metadata", lookupProp changedProps "PlaybackStatus" with
  | none, none => none
  | some (DValue.vDict md), some (DValue.vString st) => some (parseMetadata (some md) st)
  | some (DValue.vDict md), none => some (parseMetadata (some md) (fetchedStatus fetch))
  | none, some (DValue.vString st) => some (parseMetadata (fetchedMetadata fetch) st)
  | _, _ => none

/-- MprisMonitor.handleSignal.  Returns the snapshot the handler
attempts to enqueue, or none when the signal is ignored.  The guards
mirror the Go early returns in order: wrong signal name, body shorter
than two elements, first body element not the player interface string,
second body element not a property map. -/
def handleSignal (fetch : PropFetch) (sig : DBusSignal) : Option MediaMetadata :=
  if sig.Name ≠ propertiesChangedName then none
  else if sig.Body.length < 2 then none
  else
    match sig.Body[0]? with
    | some (DValue.vString interfaceName) =>
        if interfaceName ≠ playerInterface then none
        else
          match sig.Body[1]? with
          | some (DValue.vDict changedProps) => handleSignalProps fetch changedProps
          | _ => none
    | _ => none

/-- Registry deletion, modelling the Go builtin delete on the
playerNames map: removes every pair with the given key. -/
def mapDelete (m : List (String × String)) (k : String) : List (String × String) :=
  m.filter (fun p => p.1 ≠ k)

/-- Registry insertion with overwrite semantics, modelling a Go map
assignment. -/
def mapInsert (m : List (String × String)) (k v : String) : List (String × String) :=
  (k, v) :: mapDelete m k

/-- Registry lookup, modelling a Go map read with the comma-ok idiom. -/
def mapLookup (m : List (String × String)) (k : String) : Option String :=
  (m.find? (fun p => p.1 == k)).map (fun p => p.2)

/-- Failable string assertion with the Go zero value on failure,
modelling oldOwner and newOwner extraction in handleNameOwnerChanged
(the error result of the type assertion is discarded). -/
def asStringZ (v : Option DValue) : String :=
  match v with
  | some (DValue.vString s) => s
  | _ => ""

/-- MprisMonitor.handleNameOwnerChanged restricted to its effect on the
playerNames registry (the appearance branch additionally triggers a
best-effort metadata fetch, which does not touch the registry).  Guards
mirror the Go early returns: short body, first element not a string or
not in the MPRIS namespace.  Then: new owner only, associate; old owner
only, dissociate; both owners, transfer (dissociate old then associate
new). -/
def handleNameOwnerChanged (pn : List (String × String)) (sig : DBusSignal) :
    List (String × String) :=
  if sig.Body.length < 3 then pn
  else
    match sig.Body[0]? with
    | some (DValue.vString name) =>
        if ¬ hasPrefix name mprisNamePrefix then pn
        else
          let oldOwner := asStringZ sig.Body[1]?
          let newOwner := asStringZ sig.Body[2]?
          let pn1 :=
            if newOwner ≠ "" ∧ oldOwner = "" then mapInsert pn newOwner name
            else if newOwner = "" ∧ oldOwner ≠ "" then mapDelete pn oldOwner
            else pn
          if newOwner ≠ "" ∧ oldOwner ≠ "" then mapInsert (mapDelete pn1 oldOwner) newOwner name
          else pn1
    | _ => pn

/-- MprisMonitor.getPlayerName: resolve a unique bus name through the
registry, falling back to the unique name itself when unmapped. -/
def getPlayerName (pn : List (String × String)) (uniqueName : String) : String :=
  match mapLookup pn uniqueName with
  | some wellKnown => wellKnown
  | none => uniqueName

/-- Debounce window from Engine.runLoop: 500 milliseconds of silence
before the pending snapshot is processed. -/
def debounceDuration : Nat := 500

/-- Engine.runLoop on a finite, time-ordered list of inbound snapshot
arrivals with no further arrivals afterwards, under a logical clock in
milliseconds.  The first argument is the pending slot together with the
armed timer deadline (none when no snapshot is pending, matching the
initially stopped timer).  Each arrival overwrites the pending slot and
resets the timer to its own time plus the window; the timer fires, and
the pending snapshot is processed, only when the deadline is reached
before the next arrival.  Result: the list of (fire time, snapshot)
pipeline runs. -/
def runLoop : Option (Nat × MediaMetadata) → List (Nat × MediaMetadata) →
    List (Nat × MediaMetadata)
  | none, [] => []
  | some p, [] => [p]
  | none, (t, s) :: rest => runLoop (some (t + debounceDuration, s)) rest
  | some (dl, p), (t, s) :: rest =>
      if dl ≤ t then (dl, p) :: runLoop (some (t + debounceDuration, s)) rest
      else runLoop (some (t + debounceDuration, s)) rest

/-- Pipeline runs produced by the debounce engine for a time-ordered
arrival list, starting from the idle state of Engine.runLoop (stopped
timer, empty pending slot). -/
def debounceRuns (arrivals : List (Nat × MediaMetadata)) : List (Nat × MediaMetadata) :=
  runLoop none arrivals

/-- The part of the monitor state that MprisMonitor.Stop reads and
writes: the running flag and whether the events channel has been
closed. -/
structure MonitorStopState where
  running : Bool
  chClosed : Bool
deriving DecidableEq, Repr

/-- MprisMonitor.Stop as a state transformer.  When not running it
returns at once; otherwise it cancels, waits on the barrier, closes the
events channel and releases the connection.  The boolean result records
whether close was executed on an already-closed channel, which in Go is
a panic. -/
def monitorStopStep (s : MonitorStopState) : MonitorStopState × Bool :=
  if s.running = false then (s, false)
  else ({ running := false, chClosed := true }, s.chClosed)

/-- The part of the engine state read by Engine.Stop: the wallpaper
captured at startup (empty string when capture failed, the Go zero
value). -/
structure EngineState where
  originalWallpaper : String
deriving DecidableEq, Repr

/-- Engine.Stop.  The first parameter is the result the executor
returns for the SetWallpaper call (some message models an error).
Result: the engine state after the call (Engine.Stop never clears the
captured wallpaper), the list of SetWallpaper calls performed, and the
error returned by Stop.  When a wallpaper was captured, Stop applies it
and returns the executor error, if any; otherwise it performs no call
and returns no error. -/
def engineStop (setErr : Option String) (s : EngineState) :
    EngineState × List String × Option String :=
  if s.originalWallpaper ≠ "" then
    match setErr with
    | some e => (s, [s.originalWallpaper], some e)
    | none => (s, [s.originalWallpaper], none)
  else (s, [], none)

/-- The fields of MprisMonitor that MprisMonitor.Start assigns:
running, the cancel function and the stored bus connection (presence
modelled as booleans). -/
structure MonitorState where
  running : Bool
  hasCancel : Bool
  hasConn : Bool
deriving DecidableEq, Repr

/-- Outcome of MprisMonitor.Start. -/
inductive StartOutcome where
  | nilReentrant
  | errConn
  | errCtx
  | errAddMatch
  | blockedUntilDone
deriving DecidableEq, Repr

/-- MprisMonitor.Start up to the point where it blocks on the context,
parameterised by the environment: whether the session-bus connection
succeeds, whether the context is already cancelled right after
connecting, and whether the primary AddMatchSignal call succeeds (the
NameOwnerChanged subscription is non-fatal and does not affect state or
outcome).  Mirrors the Go control flow: the re-entrant guard, the
connection failure path that resets running and cancel, the
cancellation check that returns the context error, and the match-rule
failure path that returns an error without resetting any state. -/
def monitorStart (s : MonitorState) (connOk ctxCancelled primaryMatchOk : Bool) :
    MonitorState × StartOutcome :=
  if s.running then (s, StartOutcome.nilReentrant)
  else
    let s1 : MonitorState := { running := true, hasCancel := true, hasConn := s.hasConn }
    if connOk = false then
      ({ running := false, hasCancel := false, hasConn := s.hasConn }, StartOutcome.errConn)
    else if ctxCancelled then (s1, StartOutcome.errCtx)
    else
      let s2 := { s1 with hasConn := true }
      if primaryMatchOk = false then (s2, StartOutcome.errAddMatch)
      else (s2, StartOutcome.blockedUntilDone)

/-- Calls made by the OnStop lifecycle hook of the daemon. -/
inductive ShutdownCall where
  | stopEngine
  | stopMonitor
deriving DecidableEq, Repr

/-- The OnStop hook from the daemon registerHooks (full dependency
graph variant): it stops the engine first and, when that fails, logs
the error and continues; it then stops the monitor and returns the
monitor error as the hook result. -/
def daemonOnStop (_engineErr monitorErr : Option String) :
    List ShutdownCall × Option String :=
  let calls1 := [ShutdownCall.stopEngine]
  let calls2 := calls1 ++ [ShutdownCall.stopMonitor]
  match monitorErr with
  | some e => (calls2, some e)
  | none => (calls2, none)

/-- Primitive operations of the threads involved in monitor shutdown.
send and done belong to producer activities (a send on the events
channel, then the deferred wg.Done); the stop operations are the body
of MprisMonitor.Stop in program order. -/
inductive ThreadOp where
  | send
  | done
  | cancelCtx
  | waitGroup
  | closeEvents
  | closeConn
deriving DecidableEq, Repr

/-- Program order of MprisMonitor.Stop once past the running guard:
cancel the context, wait on the WaitGroup, close the events channel,
close the bus connection. -/
def stopThreadOps : List ThreadOp := [ThreadOp.cancelCtx, ThreadOp.waitGroup,
  ThreadOp.closeEvents, ThreadOp.closeConn]

/-- Program order of a producer activity (the initial scan or the
signal pump): some number of sends on the events channel followed by
the deferred wg.Done executed on exit. -/
def producerThreadOps (k : Nat) : List ThreadOp :=
  List.replicate k ThreadOp.send ++ [ThreadOp.done]

/-- Global state of the shutdown interleaving: the remaining operations
of the Stop call and of each producer activity, the WaitGroup counter,
whether the events channel is closed, and whether a send was ever
executed on the closed channel (in Go such a send panics). -/
structure SysState where
  stopRem : List ThreadOp
  prodRem : List (List ThreadOp)
  wgCount : Nat
  chClosed : Bool
  sendOnClosed : Bool
deriving DecidableEq, Repr

/-- Interleaving semantics of shutdown.  A producer may execute its
next operation at any time; a send records whether the channel was
already closed, and done decrements the WaitGroup counter.  The Stop
thread executes its operations in program order; wg.Wait is enabled
only when the counter is zero, which is the barrier semantics of
sync.WaitGroup. -/
inductive SysStep : SysState → SysState → Prop where
  | prodSend (s : SysState) (i : Nat) (rest : List ThreadOp)
      (hi : i < s.prodRem.length)
      (hop : s.prodRem[i] = ThreadOp.send :: rest) :
      SysStep s { s with prodRem := s.prodRem.set i rest,
                         sendOnClosed := s.sendOnClosed || s.chClosed }
  | prodDone (s : SysState) (i : Nat) (rest : List ThreadOp)
      (hi : i < s.prodRem.length)
      (hop : s.prodRem[i] = ThreadOp.done :: rest) :
      SysStep s { s with prodRem := s.prodRem.set i rest, wgCount := s.wgCount - 1 }
  | stopCancel (s : SysState) (rest : List ThreadOp)
      (hop : s.stopRem = ThreadOp.cancelCtx :: rest) :
      SysStep s { s with stopRem := rest }
  | stopWait (s : SysState) (rest : List ThreadOp)
      (hop : s.stopRem = ThreadOp.waitGroup :: rest) (hwg : s.wgCount = 0) :
      SysStep s { s with stopRem := rest }
  | stopCloseEvents (s : SysState) (rest : List ThreadOp)
      (hop : s.stopRem = ThreadOp.closeEvents :: rest) :
      SysStep s { s with stopRem := rest, chClosed := true }
  | stopCloseConn (s : SysState) (rest : List ThreadOp)
      (hop : s.stopRem = ThreadOp.closeConn :: rest) :
      SysStep s { s with stopRem := rest }

/-- Initial shutdown state: Stop has passed the running guard, each
producer activity has a pending operation list, the WaitGroup counter
equals the number of producers (each did wg.Add before Stop was
called), the channel is open and no send on a closed channel has
occurred. -/
def initState (sendCounts : List Nat) : SysState :=
  { stopRem := stopThreadOps,
    prodRem := sendCounts.map producerThreadOps,
    wgCount := sendCounts.length,
    chClosed := false,
    sendOnClosed := false }

/-- States reachable by the shutdown interleaving. -/
def Reachable (s0 s : SysState) : Prop :=
  Relation.ReflTransGen SysStep s0 s

/-- Number of producer activities that have not yet executed all of
their operations. -/
def activeCount (ls : List (List ThreadOp)) : Nat :=
  (ls.filter (fun l => !l.isEmpty)).length

/-- Invariant of the shutdown interleaving. -/
def Inv (s : SysState) : Prop :=
  s.sendOnClosed = false ∧
  (∀ l ∈ s.prodRem, l = [] ∨ ∃ k, l = producerThreadOps k) ∧
  s.wgCount = activeCount s.prodRem ∧
  (s.stopRem = stopThreadOps ∨
   s.stopRem = [ThreadOp.waitGroup, ThreadOp.closeEvents, ThreadOp.closeConn] ∨
   s.stopRem = [ThreadOp.closeEvents, ThreadOp.closeConn] ∨
   s.stopRem = [ThreadOp.closeConn] ∨
   s.stopRem = []) ∧
  ((s.stopRem = [ThreadOp.closeEvents, ThreadOp.closeConn] ∨
    s.stopRem = [ThreadOp.closeConn] ∨
    s.stopRem = []) → ∀ l ∈ s.prodRem, l = []) ∧
  (s.chClosed = true ↔ (s.stopRem = [ThreadOp.closeConn] ∨ s.stopRem = []))

lemma producerThreadOps_succ (k : Nat) :
    producerThreadOps (k + 1) = ThreadOp.send :: producerThreadOps k := by
  simp [producerThreadOps, List.replicate_succ]

lemma producerThreadOps_isEmpty (k : Nat) : (producerThreadOps k).isEmpty = false := by
  cases k <;> simp [producerThreadOps, List.replicate_succ]

lemma shape_send {e : List ThreadOp} {rest : List ThreadOp}
    (hsh : e = [] ∨ ∃ k, e = producerThreadOps k)
    (he : e = ThreadOp.send :: rest) : ∃ k, rest = producerThreadOps k := by
  rcases hsh with h | ⟨k, h⟩
  · rw [h] at he; cases he
  · cases k with
    | zero => rw [h] at he; simp [producerThreadOps] at he
    | succ n =>
      rw [h, producerThreadOps_succ] at he
      injection he with h1 h2
      exact ⟨n, h2.symm⟩

lemma shape_done {e : List ThreadOp} {rest : List ThreadOp}
    (hsh : e = [] ∨ ∃ k, e = producerThreadOps k)
    (he : e = ThreadOp.done :: rest) : rest = [] := by
  rcases hsh with h | ⟨k, h⟩
  · rw [h] at he; cases he
  · cases k with
    | zero =>
      rw [h] at he; simp [producerThreadOps] at he
      exact he
    | succ n => rw [h, producerThreadOps_succ] at he; simp at he

lemma activeCount_cons (l : List ThreadOp) (ls : List (List ThreadOp)) :
    activeCount (l :: ls) = (if l.isEmpty then 0 else 1) + activeCount ls := by
  cases hl : l.isEmpty <;> simp [activeCount, List.filter_cons, hl, Nat.add_comm]

lemma activeCount_set (ls : List (List ThreadOp)) (i : Nat) (x : List ThreadOp)
    (hi : i < ls.length) :
    activeCount (ls.set i x) + (if ls[i].isEmpty then 0 else 1)
      = activeCount ls + (if x.isEmpty then 0 else 1) := by
  induction ls generalizing i with
  | nil => simp at hi
  | cons hd tl ih =>
    cases i with
    | zero =>
      simp only [List.set_cons_zero, List.getElem_cons_zero]
      rw [activeCount_cons, activeCount_cons]
      omega
    | succ n =>
      have hn : n < tl.length := by simpa using hi
      simp only [List.set_cons_succ, List.getElem_cons_succ]
      rw [activeCount_cons, activeCount_cons]
      have hrec := ih n hn
      omega

lemma activeCount_eq_zero {ls : List (List ThreadOp)} (h : activeCount ls = 0) :
    ∀ l ∈ ls, l = [] := by
  intro l hl
  have hfil : ls.filter (fun l => !l.isEmpty) = [] := List.length_eq_zero.mp h
  have hmem := List.filter_eq_nil_iff.mp hfil l hl
  simpa using hmem

lemma activeCount_map_producer (cs : List Nat) :
    activeCount (cs.map producerThreadOps) = cs.length := by
  induction cs with
  | nil => rfl
  | cons c cs ih =>
    rw [List.map_cons, activeCount_cons, ih, producerThreadOps_isEmpty]
    simp [Nat.add_comm]

lemma inv_init (cs : List Nat) : Inv (initState cs) := by
  refine ⟨rfl, ?_, ?_, Or.inl rfl, ?_, ?_⟩
  · intro l hl
    obtain ⟨k, _, hk⟩ := List.mem_map.mp hl
    exact Or.inr ⟨k, hk.symm⟩
  · exact (activeCount_map_producer cs).symm
  · intro hreg
    rcases hreg with h | h | h <;> simp [initState, stopThreadOps] at h
  · constructor
    · intro h; simp [initState] at h
    · intro h; rcases h with h | h <;> simp [initState, stopThreadOps] at h

lemma inv_step {s t : SysState} (hinv : Inv s) (hstep : SysStep s t) : Inv t := by
  obtain ⟨hsc, hshape, hwg, hsuf, hempty, hclosed⟩ := hinv
  cases hstep with
  | prodSend i rest hi hop =>
    have hmem : s.prodRem[i] ∈ s.prodRem := List.getElem_mem hi
    have hchf : s.chClosed = false := by
      cases hcc : s.chClosed
      · rfl
      · exfalso
        have hreg := hclosed.mp hcc
        have hall := hempty (by
          rcases hreg with h | h
          · exact Or.inr (Or.inl h)
          · exact Or.inr (Or.inr h))
        have hentry := hall _ hmem
        rw [hop] at hentry
        cases hentry
    obtain ⟨k, hk⟩ := shape_send (hshape _ hmem) hop
    refine ⟨?_, ?_, ?_, hsuf, ?_, hclosed⟩
    · simp [hsc, hchf]
    · intro l hl
      rcases List.mem_or_eq_of_mem_set hl with h | h
      · exact hshape l h
      · exact h ▸ Or.inr ⟨k, hk⟩
    · have hkey := activeCount_set s.prodRem i rest hi
      have hre : rest.isEmpty = false := by rw [hk]; exact producerThreadOps_isEmpty k
      rw [hop] at hkey
      simp only [List.isEmpty_cons, hre, if_neg Bool.false_ne_true] at hkey
      simp only [hwg]
      omega
    · intro hreg
      exfalso
      have hall := hempty hreg
      have hentry := hall _ hmem
      rw [hop] at hentry
      cases hentry
  | prodDone i rest hi hop =>
    have hmem : s.prodRem[i] ∈ s.prodRem := List.getElem_mem hi
    have hre : rest = [] := shape_done (hshape _ hmem) hop
    subst hre
    refine ⟨hsc, ?_, ?_, hsuf, ?_, hclosed⟩
    · intro l hl
      rcases List.mem_or_eq_of_mem_set hl with h | h
      · exact hshape l h
      · exact Or.inl h
    · have hkey := activeCount_set s.prodRem i [] hi
      rw [hop] at hkey
      simp at hkey
      simp only [hwg]
      omega
    · intro hreg
      exfalso
      have hall := hempty hreg
      have hentry := hall _ hmem
      rw [hop] at hentry
      cases hentry
  | stopCancel rest hop =>
    have hs0 : s.stopRem = stopThreadOps := by
      rcases hsuf with h | h | h | h | h
      · exact h
      all_goals rw [h] at hop; simp [stopThreadOps] at hop
    have hrest : rest = [ThreadOp.waitGroup, ThreadOp.closeEvents, ThreadOp.closeConn] := by
      rw [hs0] at hop
      simp only [stopThreadOps] at hop
      exact (List.cons_eq_cons.mp hop).2.symm
    have hch : s.chClosed = false := by
      cases hcc : s.chClosed
      · rfl
      · have hreg := hclosed.mp hcc
        rw [hs0] at hreg
        rcases hreg with h | h <;> simp [stopThreadOps] at h
    subst hrest
    refine ⟨hsc, hshape, hwg, Or.inr (Or.inl rfl), ?_, ?_⟩
    · intro hreg
      rcases hreg with h | h | h <;> simp at h
    · simp only [hch]
      constructor
      · intro h; cases h
      · intro h; rcases h with h | h <;> simp at h
  | stopWait rest hop hwg0 =>
    have hs0 : s.stopRem = [ThreadOp.waitGroup, ThreadOp.closeEvents, ThreadOp.closeConn] := by
      rcases hsuf with h | h | h | h | h
      · rw [h] at hop; simp [stopThreadOps] at hop
      · exact h
      all_goals rw [h] at hop; simp at hop
    have hrest : rest = [ThreadOp.closeEvents, ThreadOp.closeConn] := by
      rw [hs0] at hop
      exact (List.cons_eq_cons.mp hop).2.symm
    have hall : ∀ l ∈ s.prodRem, l = [] := by
      apply activeCount_eq_zero
      rw [← hwg]
      exact hwg0
    have hch : s.chClosed = false := by
      cases hcc : s.chClosed
      · rfl
      · have hreg := hclosed.mp hcc
        rw [hs0] at hreg
        rcases hreg with h | h <;> simp at h
    subst hrest
    refine ⟨hsc, hshape, hwg, Or.inr (Or.inr (Or.inl rfl)), ?_, ?_⟩
    · intro _
      exact hall
    · simp only [hch]
      constructor
      · intro h; cases h
      · intro h; rcases h with h | h <;> simp at h
  | stopCloseEvents rest hop =>
    have hs0 : s.stopRem = [ThreadOp.closeEvents, ThreadOp.closeConn] := by
      rcases hsuf with h | h | h | h | h
      · rw [h] at hop; simp [stopThreadOps] at hop
      · rw [h] at hop; simp at hop
      · exact h
      all_goals rw [h] at hop; simp at hop
    have hrest : rest = [ThreadOp.closeConn] := by
      rw [hs0] at hop
      exact (List.cons_eq_cons.mp hop).2.symm
    have hall : ∀ l ∈ s.prodRem, l = [] := hempty (Or.inl hs0)
    subst hrest
    refine ⟨hsc, hshape, hwg, Or.inr (Or.inr (Or.inr (Or.inl rfl))), ?_, ?_⟩
    · intro _
      exact hall
    · simp
  | stopCloseConn rest hop =>
    have hs0 : s.stopRem = [ThreadOp.closeConn] := by
      rcases hsuf with h | h | h | h | h
      · rw [h] at hop; simp [stopThreadOps] at hop
      · rw [h] at hop; simp at hop
      · rw [h] at hop; simp at hop
      · exact h
      · rw [h] at hop; simp at hop
    have hrest : rest = [] := by
      rw [hs0] at hop
      exact (List.cons_eq_cons.mp hop).2.symm
    have hall : ∀ l ∈ s.prodRem, l = [] := hempty (Or.inr (Or.inl hs0))
    have hch : s.chClosed = true := hclosed.mpr (Or.inl hs0)
    subst hrest
    refine ⟨hsc, hshape, hwg, Or.inr (Or.inr (Or.inr (Or.inr rfl))), ?_, ?_⟩
    · intro _
      exact hall
    · simp [hch]

lemma inv_reachable {cs : List Nat} {s : SysState} (h : Reachable (initState cs) s) :
    Inv s := by
  induction h with
  | refl => exact inv_init cs
  | tail _ hstep ih => exact inv_step ih hstep

lemma mapLookup_mapDelete (m : List (String × String)) (k : String) :
    mapLookup (mapDelete m k) k = none := by
  induction m with
  | nil => rfl
  | cons p m ih =>
    by_cases h : p.1 = k
    · simp [mapDelete, List.filter_cons, h] at ih ⊢
      exact ih
    · simp [mapDelete, mapLookup, List.filter_cons, List.find?_cons, h] at ih ⊢
      try exact ih

/-- Claim C3: when the events channel already holds ten unread
snapshots, which is its fixed capacity from NewMprisMonitor, the
non-blocking enqueue attempt of an eleventh snapshot returns at once
without accepting it: the attempt is a total function whose result
keeps the buffer unchanged, so the new snapshot is dropped and the ten
original unread snapshots remain in the queue. -/
theorem queue_full_drop (queue : List MediaMetadata) (x : MediaMetadata)
    (h : queue.length = eventsChanCapacity) :
    trySendEvent queue x = (queue, false) := by
  simp [trySendEvent, h]

theorem queue_full_drop_witness :
    (List.replicate 10 ({} : MediaMetadata)).length = eventsChanCapacity ∧
    trySendEvent (List.replicate 10 ({} : MediaMetadata)) {} =
      (List.replicate 10 ({} : MediaMetadata), false) :=
  ⟨by decide, queue_full_drop _ _ (by decide)⟩

/-- Claim C4: with the 500 ms quiet window of Engine.runLoop, inbound
snapshots at 0 ms, 100 ms and 150 ms and no further arrivals produce
exactly one pipeline run, carrying the third snapshot because each
arrival overwrites the pending one and restarts the timer, and the run
happens at 650 ms, hence no earlier than 650 ms. -/
theorem debounce_single_run (s1 s2 s3 : MediaMetadata) :
    debounceRuns [(0, s1), (100, s2), (150, s3)] = [(650, s3)] := rfl

/-- Claim C9: a disappearance lifecycle event (new owner absent,
previous owner present) on a player-namespace name removes the registry
entry of the previous owner, and every subsequent resolve of that
identity returns the identity itself rather than a logical name or an
error. -/
theorem disappearance_unresolves (pn : List (String × String))
    (name oldOwner sender : String)
    (hname : hasPrefix name mprisNamePrefix = true)
    (hold : oldOwner ≠ "") :
    mapLookup (handleNameOwnerChanged pn
        ⟨"org.freedesktop.DBus.NameOwnerChanged", sender,
         [DValue.vString name, DValue.vString oldOwner, DValue.vString ""]⟩) oldOwner
      = none ∧
    getPlayerName (handleNameOwnerChanged pn
        ⟨"org.freedesktop.DBus.NameOwnerChanged", sender,
         [DValue.vString name, DValue.vString oldOwner, DValue.vString ""]⟩) oldOwner
      = oldOwner := by
  have hres : handleNameOwnerChanged pn
      ⟨"org.freedesktop.DBus.NameOwnerChanged", sender,
       [DValue.vString name, DValue.vString oldOwner, DValue.vString ""]⟩
      = mapDelete pn oldOwner := by
    simp [handleNameOwnerChanged, asStringZ, hname, hold]
  rw [hres]
  refine ⟨mapLookup_mapDelete pn oldOwner, ?_⟩
  rw [getPlayerName, mapLookup_mapDelete pn oldOwner]

set_option maxRecDepth 4096 in
theorem disappearance_unresolves_witness :
    (hasPrefix "org.mpris.MediaPlayer2.spotify" mprisNamePrefix = true ∧
     (":1.45" : String) ≠ "") ∧
    (mapLookup (handleNameOwnerChanged [(":1.45", "org.mpris.MediaPlayer2.spotify")]
        ⟨"org.freedesktop.DBus.NameOwnerChanged", ":0.7",
         [DValue.vString "org.mpris.MediaPlayer2.spotify", DValue.vString ":1.45",
          DValue.vString ""]⟩) ":1.45" = none ∧
     getPlayerName (handleNameOwnerChanged [(":1.45", "org.mpris.MediaPlayer2.spotify")]
        ⟨"org.freedesktop.DBus.NameOwnerChanged", ":0.7",
         [DValue.vString "org.mpris.MediaPlayer2.spotify", DValue.vString ":1.45",
          DValue.vString ""]⟩) ":1.45" = ":1.45") :=
  ⟨⟨by decide, by decide⟩,
   disappearance_unresolves [(":1.45", "org.mpris.MediaPlayer2.spotify")]
     "org.mpris.MediaPlayer2.spotify" ":1.45" ":0.7" (by decide) (by decide)⟩

lemma parseMetadata_Artist (bag : List (String × DValue)) (status : String) :
    (parseMetadata (some bag) status).Artist =
      match lookupProp bag "xesam:artist" with
      | some (DValue.vStringArray l) => l.headD ""
      | some (DValue.vString a) => a
      | _ => "" := by
  simp only [parseMetadata]
  repeat' split
  all_goals simp_all

/-- Claim C8: the parser maps the artist field by dynamic shape: a
sequence of strings yields its first element, or the empty string when
the sequence is empty; a single string yields that string; any other
dynamic type yields the empty string, and no error is possible since
the parser is a total function.  In particular a one-element sequence
holding the name Queen yields Queen, the plain string Queen yields
Queen, and the integer 42 yields the empty string. -/
theorem artist_field_mapping :
    (∀ bag status l, lookupProp bag "xesam:artist" = some (DValue.vStringArray l) →
        (parseMetadata (some bag) status).Artist = l.headD "") ∧
    (∀ bag status a, lookupProp bag "xesam:artist" = some (DValue.vString a) →
        (parseMetadata (some bag) status).Artist = a) ∧
    (∀ bag status v, lookupProp bag "xesam:artist" = some v →
        (∀ l, v ≠ DValue.vStringArray l) → (∀ a, v ≠ DValue.vString a) →
        (parseMetadata (some bag) status).Artist = "") ∧
    (parseMetadata (some [("xesam:artist", DValue.vStringArray ["Queen"])]) "Playing").Artist
      = "Queen" ∧
    (parseMetadata (some [("xesam:artist", DValue.vString "Queen")]) "Playing").Artist
      = "Queen" ∧
    (parseMetadata (some [("xesam:artist", DValue.vInt 42)]) "Playing").Artist = "" := by
  refine ⟨?_, ?_, ?_, rfl, rfl, rfl⟩
  · intro bag status l h
    rw [parseMetadata_Artist, h]
  · intro bag status a h
    rw [parseMetadata_Artist, h]
  · intro bag status v h hl ha
    rw [parseMetadata_Artist, h]
    cases v with
    | vStringArray l => exact absurd rfl (hl l)
    | vString a => exact absurd rfl (ha a)
    | vInt n => rfl
    | vDict d => rfl
    | vOther => rfl

theorem artist_field_mapping_witness :
    lookupProp [("xesam:artist", DValue.vStringArray ["Queen"])] "xesam:artist"
      = some (DValue.vStringArray ["Queen"]) ∧
    (parseMetadata (some [("xesam:artist", DValue.vStringArray ["Queen"])]) "Playing").Artist
      = (["Queen"] : List String).headD "" :=
  ⟨rfl, artist_field_mapping.1 _ "Playing" ["Queen"] rfl⟩

lemma handleSignal_eq_props (fetch : PropFetch) (sig : DBusSignal)
    (d : List (String × DValue))
    (hname : sig.Name = propertiesChangedName)
    (hlen : ¬ sig.Body.length < 2)
    (h0 : sig.Body[0]? = some (DValue.vString playerInterface))
    (h1 : sig.Body[1]? = some (DValue.vDict d)) :
    handleSignal fetch sig = handleSignalProps fetch d := by
  simp [handleSignal, hname, hlen, h0, h1]

lemma handleSignalProps_badMeta (fetch : PropFetch) (d : List (String × DValue))
    (v : DValue) (hm : lookupProp d "Metadata" = some v)
    (hne : ∀ m, v ≠ DValue.vDict m) : handleSignalProps fetch d = none := by
  unfold handleSignalProps
  rw [hm]
  rcases hs : lookupProp d "PlaybackStatus" with _ | sv
  · cases v with
    | vDict m => exact absurd rfl (hne m)
    | vString s => rfl
    | vStringArray l => rfl
    | vInt n => rfl
    | vOther => rfl
  · cases v with
    | vDict m => exact absurd rfl (hne m)
    | vString s => cases sv <;> rfl
    | vStringArray l => cases sv <;> rfl
    | vInt n => cases sv <;> rfl
    | vOther => cases sv <;> rfl

lemma handleSignalProps_badStatus (fetch : PropFetch) (d : List (String × DValue))
    (v : DValue) (hs : lookupProp d "PlaybackStatus" = some v)
    (hne : ∀ st, v ≠ DValue.vString st) : handleSignalProps fetch d = none := by
  unfold handleSignalProps
  rw [hs]
  rcases hm : lookupProp d "Metadata" with _ | mv
  · cases v with
    | vString st => exact absurd rfl (hne st)
    | vStringArray l => rfl
    | vInt n => rfl
    | vDict m => rfl
    | vOther => rfl
  · cases v with
    | vString st => exact absurd rfl (hne st)
    | vStringArray l => cases mv <;> rfl
    | vInt n => cases mv <;> rfl
    | vDict m => cases mv <;> rfl
    | vOther => cases mv <;> rfl

/-- Claim C2: every malformed signal — name not the PropertiesChanged
signal, body shorter than the minimum two fields, declared interface
not the player interface, changed-properties set containing neither
Metadata nor PlaybackStatus, or a Metadata or PlaybackStatus value with
the wrong dynamic type — makes the signal-pump handler emit no
snapshot. -/
theorem malformed_signal_no_emission (fetch : PropFetch) (sig : DBusSignal)
    (h : sig.Name ≠ propertiesChangedName
       ∨ sig.Body.length < 2
       ∨ sig.Body[0]? ≠ some (DValue.vString playerInterface)
       ∨ (∃ d, sig.Body[1]? = some (DValue.vDict d) ∧
            lookupProp d "Metadata" = none ∧ lookupProp d "PlaybackStatus" = none)
       ∨ (∃ d v, sig.Body[1]? = some (DValue.vDict d) ∧
            lookupProp d "Metadata" = some v ∧ ∀ m, v ≠ DValue.vDict m)
       ∨ (∃ d v, sig.Body[1]? = some (DValue.vDict d) ∧
            lookupProp d "PlaybackStatus" = some v ∧ ∀ st, v ≠ DValue.vString st)) :
    handleSignal fetch sig = none := by
  by_cases hname : sig.Name = propertiesChangedName
  · by_cases hlen : sig.Body.length < 2
    · unfold handleSignal
      rw [if_neg (fun hc => hc hname), if_pos hlen]
    · by_cases h0 : sig.Body[0]? = some (DValue.vString playerInterface)
      · rcases h with h | h | h | ⟨d, hd, hm, hs⟩ | ⟨d, v, hd, hm, hv⟩ | ⟨d, v, hd, hs, hv⟩
        · exact absurd hname h
        · exact absurd h hlen
        · exact absurd h0 h
        · rw [handleSignal_eq_props fetch sig d hname hlen h0 hd]
          unfold handleSignalProps
          rw [hm, hs]
        · rw [handleSignal_eq_props fetch sig d hname hlen h0 hd]
          exact handleSignalProps_badMeta fetch d v hm hv
        · rw [handleSignal_eq_props fetch sig d hname hlen h0 hd]
          exact handleSignalProps_badStatus fetch d v hs hv
      · unfold handleSignal
        rw [if_neg (fun hc => hc hname), if_neg hlen]
        rcases hb : sig.Body[0]? with _ | bv
        · rfl
        · cases bv with
          | vString s =>
            have hsne : s ≠ playerInterface := by
              intro hc
              exact h0 (by rw [hb, hc])
            simp [hsne]
          | vStringArray l => rfl
          | vInt n => rfl
          | vDict dd => rfl
          | vOther => rfl
  · unfold handleSignal
    rw [if_pos hname]

theorem malformed_signal_no_emission_witness :
    (("bogus" : String) ≠ propertiesChangedName) ∧
    handleSignal ⟨none, none⟩ ⟨"bogus", ":1.2", []⟩ = none :=
  ⟨by decide,
   malformed_signal_no_emission ⟨none, none⟩ ⟨"bogus", ":1.2", []⟩ (Or.inl (by decide))⟩

lemma parseMetadata_Status (bag : List (String × DValue)) (status : String) :
    (parseMetadata (some bag) status).Status = parseStatus status := by
  simp only [parseMetadata]
  repeat' split
  all_goals simp_all

/-- Claim C10, implicit: a failed on-demand property fetch does not
drop the signal.  When only PlaybackStatus changed and the on-demand
Metadata fetch fails, a snapshot is still emitted with empty title,
artist, album and artwork; when only Metadata changed and the on-demand
PlaybackStatus fetch fails, a snapshot is still emitted whose status
defaults to Stopped (the zero-value status string parses to
Stopped). -/
theorem fetch_failure_still_emits :
    (∀ (fetch : PropFetch) (sender : String) (props : List (String × DValue)) (st : String),
        fetch.metadataFetch = none →
        lookupProp props "Metadata" = none →
        lookupProp props "PlaybackStatus" = some (DValue.vString st) →
        handleSignal fetch
          ⟨propertiesChangedName, sender, [DValue.vString playerInterface, DValue.vDict props]⟩
          = some { Title := "", Artist := "", Album := "", ArtUrl := "",
                   Status := parseStatus st }) ∧
    (∀ (fetch : PropFetch) (sender : String) (props md : List (String × DValue)),
        fetch.statusFetch = none →
        lookupProp props "Metadata" = some (DValue.vDict md) →
        lookupProp props "PlaybackStatus" = none →
        handleSignal fetch
          ⟨propertiesChangedName, sender, [DValue.vString playerInterface, DValue.vDict props]⟩
          = some (parseMetadata (some md) "") ∧
        (parseMetadata (some md) "").Status = PlayerStatus.Stopped) := by
  constructor
  · intro fetch sender props st hF hm hst
    rw [handleSignal_eq_props fetch
      ⟨propertiesChangedName, sender, [DValue.vString playerInterface, DValue.vDict props]⟩
      props rfl (by simp) rfl rfl]
    unfold handleSignalProps
    rw [hm, hst]
    simp [fetchedMetadata, hF]
    rfl
  · intro fetch sender props md hF hm hst
    constructor
    · rw [handleSignal_eq_props fetch
        ⟨propertiesChangedName, sender, [DValue.vString playerInterface, DValue.vDict props]⟩
        props rfl (by simp) rfl rfl]
      unfold handleSignalProps
      rw [hm, hst]
      simp [fetchedStatus, hF]
    · rw [parseMetadata_Status]
      rfl

theorem fetch_failure_still_emits_witness :
    ((⟨none, none⟩ : PropFetch).metadataFetch = none ∧
     lookupProp [("PlaybackStatus", DValue.vString "Playing")] "Metadata" = none ∧
     lookupProp [("PlaybackStatus", DValue.vString "Playing")] "PlaybackStatus"
       = some (DValue.vString "Playing")) ∧
    handleSignal ⟨none, none⟩
      ⟨propertiesChangedName, ":1.9",
       [DValue.vString playerInterface,
        DValue.vDict [("PlaybackStatus", DValue.vString "Playing")]]⟩
      = some { Title := "", Artist := "", Album := "", ArtUrl := "",
               Status := parseStatus "Playing" } :=
  ⟨⟨rfl, rfl, rfl⟩,
   fetch_failure_still_emits.1 ⟨none, none⟩ ":1.9" _ "Playing" rfl rfl rfl⟩

/-- Claim C5 counterexample: with a captured original wallpaper, the
second Engine.Stop performs the same SetWallpaper restoration call as
the first, because Engine.Stop never clears the captured path — so
calling stop twice does produce a duplicate restoration attempt,
contrary to the claim. -/
theorem double_stop_duplicate_restore_counterexample :
    (engineStop none ⟨"/old.png"⟩).2.1 = ["/old.png"] ∧
    (engineStop none (engineStop none ⟨"/old.png"⟩).1).2.1 = ["/old.png"] := by
  exact ⟨by decide, by decide⟩

/-- Claim C5 amended: calling stop twice produces no panic — the
monitor second Stop returns through the running guard without
re-closing the already-closed channel — but the engine second Stop
repeats the restoration attempt with the same captured wallpaper,
because Engine.Stop does not clear the captured path. -/
theorem double_stop_amended :
    (∀ s : MonitorStopState, s.chClosed = false →
        (monitorStopStep s).2 = false ∧
        (monitorStopStep (monitorStopStep s).1).2 = false ∧
        (monitorStopStep (monitorStopStep s).1).1 = (monitorStopStep s).1) ∧
    (∀ (e : EngineState) (setErr : Option String),
        (engineStop setErr (engineStop setErr e).1).2.1 = (engineStop setErr e).2.1) := by
  constructor
  · intro s hcc
    cases hr : s.running <;> simp [monitorStopStep, hr, hcc]
  · intro e setErr
    have hst : (engineStop setErr e).1 = e := by
      unfold engineStop
      by_cases h : e.originalWallpaper ≠ ""
      · cases setErr <;> simp [h]
      · simp [h]
    rw [hst]

theorem double_stop_amended_witness :
    ((⟨true, false⟩ : MonitorStopState).chClosed = false ∧
     (monitorStopStep ⟨true, false⟩).2 = false ∧
     (monitorStopStep (monitorStopStep ⟨true, false⟩).1).2 = false ∧
     (monitorStopStep (monitorStopStep ⟨true, false⟩).1).1 = (monitorStopStep ⟨true, false⟩).1) ∧
    (engineStop none (engineStop none ⟨"/w.png"⟩).1).2.1 = (engineStop none ⟨"/w.png"⟩).2.1 :=
  ⟨⟨rfl, double_stop_amended.1 ⟨true, false⟩ rfl⟩, double_stop_amended.2 ⟨"/w.png"⟩ none⟩

/-- Claim C6 counterexample: starting from an idle monitor with a
working bus connection but a failing primary AddMatchSignal call,
Start returns the match-rule error yet leaves the running flag set, so
the monitor is not back in the Idle state and a subsequent Start
returns at once through the re-entrant guard. -/
theorem start_matchfail_keeps_running_counterexample :
    (monitorStart ⟨false, false, false⟩ true false false).2 = StartOutcome.errAddMatch ∧
    (monitorStart ⟨false, false, false⟩ true false false).1.running = true ∧
    (monitorStart (monitorStart ⟨false, false, false⟩ true false false).1 true false true).2
      = StartOutcome.nilReentrant := by
  exact ⟨rfl, rfl, rfl⟩

/-- Claim C6 amended: when the session-bus connection fails, Start
reverts the monitor to Idle (running flag false again, cancel cleared)
before returning the error, so a later Start is accepted; when instead
the primary signal subscription fails, Start returns the error but
leaves the running flag set, so a subsequent Start is rejected by the
re-entrant guard. -/
theorem start_failure_state_amended :
    ∀ connOk ctxCancelled primaryMatchOk : Bool,
      ((monitorStart ⟨false, false, false⟩ connOk ctxCancelled primaryMatchOk).2
          = StartOutcome.errConn →
        (monitorStart ⟨false, false, false⟩ connOk ctxCancelled primaryMatchOk).1.running
            = false ∧
        (monitorStart ⟨false, false, false⟩ connOk ctxCancelled primaryMatchOk).1.hasCancel
            = false) ∧
      ((monitorStart ⟨false, false, false⟩ connOk ctxCancelled primaryMatchOk).2
          = StartOutcome.errAddMatch →
        (monitorStart ⟨false, false, false⟩ connOk ctxCancelled primaryMatchOk).1.running
          = true) := by
  decide

theorem start_failure_state_amended_witness :
    ((monitorStart ⟨false, false, false⟩ false false true).2 = StartOutcome.errConn ∧
     (monitorStart ⟨false, false, false⟩ false false true).1.running = false ∧
     (monitorStart ⟨false, false, false⟩ false false true).1.hasCancel = false) ∧
    ((monitorStart ⟨false, false, false⟩ true false false).2 = StartOutcome.errAddMatch ∧
     (monitorStart ⟨false, false, false⟩ true false false).1.running = true) :=
  ⟨⟨rfl, (start_failure_state_amended false false true).1 rfl⟩,
   ⟨rfl, (start_failure_state_amended true false false).2 rfl⟩⟩

/-- Claim C7 counterexample: when the executor fails to apply the
captured original wallpaper, Engine.Stop returns that error rather
than completing with no error, contrary to the claim that Stop returns
no error when restoration fails. -/
theorem engine_stop_returns_restore_error_counterexample :
    (engineStop (some "restore failed") ⟨"/old.png"⟩).2.2 = some "restore failed" ∧
    (engineStop (some "restore failed") ⟨"/old.png"⟩).2.2 ≠ none := by
  exact ⟨by decide, by decide⟩

/-- Claim C7 amended: a restoration failure makes Engine.Stop log and
return the executor error; shutdown nevertheless completes because the
daemon OnStop hook logs the engine error without aborting, still stops
the monitor, and returns only the monitor error. -/
theorem engine_stop_error_shutdown_amended :
    (∀ (e : EngineState) (msg : String), e.originalWallpaper ≠ "" →
        (engineStop (some msg) e).2.2 = some msg) ∧
    (∀ engineErr : Option String,
        (daemonOnStop engineErr none).1
            = [ShutdownCall.stopEngine, ShutdownCall.stopMonitor] ∧
        (daemonOnStop engineErr none).2 = none) := by
  constructor
  · intro e msg h
    simp [engineStop, h]
  · intro engineErr
    exact ⟨rfl, rfl⟩

theorem engine_stop_error_shutdown_amended_witness :
    ((⟨"/old.png"⟩ : EngineState).originalWallpaper ≠ "" ∧
     (engineStop (some "boom") ⟨"/old.png"⟩).2.2 = some "boom") ∧
    ((daemonOnStop (some "boom") none).1
        = [ShutdownCall.stopEngine, ShutdownCall.stopMonitor] ∧
     (daemonOnStop (some "boom") none).2 = none) :=
  ⟨⟨by decide, engine_stop_error_shutdown_amended.1 ⟨"/old.png"⟩ "boom" (by decide)⟩,
   engine_stop_error_shutdown_amended.2 (some "boom")⟩

/-- Claim C1: in every execution of monitor shutdown — any interleaving
of the Stop thread with the producer activities tracked by the
completion barrier — the events channel is closed only after every
producer activity has exited through the barrier (whenever the channel
is closed, every producer operation list is exhausted), the bus
connection release is reached only after the channel is closed, and
consequently no send on the events channel ever occurs after it is
closed. -/
theorem stop_close_barrier_ordering (sendCounts : List Nat) (s : SysState)
    (h : Reachable (initState sendCounts) s) :
    s.sendOnClosed = false ∧
    (s.chClosed = true → ∀ l ∈ s.prodRem, l = []) ∧
    ((s.stopRem = [ThreadOp.closeConn] ∨ s.stopRem = []) → s.chClosed = true) := by
  obtain ⟨h1, _, _, _, hempty, hclosed⟩ := inv_reachable h
  refine ⟨h1, ?_, fun hr => hclosed.mpr hr⟩
  intro hc
  refine hempty ?_
  rcases hclosed.mp hc with h | h
  · exact Or.inr (Or.inl h)
  · exact Or.inr (Or.inr h)

lemma shutdown_run_reachable : Reachable (initState [1])
    { stopRem := [], prodRem := [[]], wgCount := 0, chClosed := true,
      sendOnClosed := false } := by
  refine Relation.ReflTransGen.head
    (show SysStep (initState [1])
        { stopRem := stopThreadOps, prodRem := [[ThreadOp.done]], wgCount := 1,
          chClosed := false, sendOnClosed := false } from
      SysStep.prodSend _ 0 [ThreadOp.done] (by decide) (by decide)) ?_
  refine Relation.ReflTransGen.head
    (show SysStep _
        { stopRem := stopThreadOps, prodRem := [([] : List ThreadOp)], wgCount := 0,
          chClosed := false, sendOnClosed := false } from
      SysStep.prodDone _ 0 [] (by decide) (by decide)) ?_
  refine Relation.ReflTransGen.head
    (show SysStep _
        { stopRem := [ThreadOp.waitGroup, ThreadOp.closeEvents, ThreadOp.closeConn],
          prodRem := [([] : List ThreadOp)], wgCount := 0,
          chClosed := false, sendOnClosed := false } from
      SysStep.stopCancel _ _ (by decide)) ?_
  refine Relation.ReflTransGen.head
    (show SysStep _
        { stopRem := [ThreadOp.closeEvents, ThreadOp.closeConn],
          prodRem := [([] : List ThreadOp)], wgCount := 0,
          chClosed := false, sendOnClosed := false } from
      SysStep.stopWait _ _ (by decide) (by decide)) ?_
  refine Relation.ReflTransGen.head
    (show SysStep _
        { stopRem := [ThreadOp.closeConn], prodRem := [([] : List ThreadOp)], wgCount := 0,
          chClosed := true, sendOnClosed := false } from
      SysStep.stopCloseEvents _ _ (by decide)) ?_
  refine Relation.ReflTransGen.head
    (show SysStep _
        { stopRem := [], prodRem := [([] : List ThreadOp)], wgCount := 0,
          chClosed := true, sendOnClosed := false } from
      SysStep.stopCloseConn _ _ (by decide)) ?_
  exact Relation.ReflTransGen.refl

theorem stop_close_barrier_ordering_witness :
    ({ stopRem := [], prodRem := [[]], wgCount := 0, chClosed := true,
       sendOnClosed := false } : SysState).sendOnClosed = false ∧
    (({ stopRem := [], prodRem := [[]], wgCount := 0, chClosed := true,
        sendOnClosed := false } : SysState).chClosed = true →
      ∀ l ∈ ({ stopRem := [], prodRem := [[]], wgCount := 0, chClosed := true,
               sendOnClosed := false } : SysState).prodRem, l = []) ∧
    ((({ stopRem := [], prodRem := [[]], wgCount := 0, chClosed := true,
         sendOnClosed := false } : SysState).stopRem = [ThreadOp.closeConn] ∨
      ({ stopRem := [], prodRem := [[]], wgCount := 0, chClosed := true,
         sendOnClosed := false } : SysState).stopRem = []) →
      ({ stopRem := [], prodRem := [[]], wgCount := 0, chClosed := true,
         sendOnClosed := false } : SysState).chClosed = true) :=
  stop_close_barrier_ordering [1] _ shutdown_run_reachable

end Synest
